import Mathlib

/-!
Verification of the Black-Scholes European option pricing engine of
`src/main.c` (EuroOptionsCalculator).

The C code works on IEEE doubles; here each `double` is modelled as a real
number, `log`/`sqrt`/`exp` as their Mathlib counterparts, and the option
type character as `Char`.  Every definition below mirrors one C function of
the source; the local variables `t` and `y` of `cdf` become the helper
definitions `cdf_t` and `cdf_y`.  A second rendition of the same pipeline
(`FP` namespace) runs on IEEE value classes — finite value, `+inf`,
`-inf`, NaN — with the IEEE semantics of each primitive, to reason about
the NaN/Infinity behaviour of the original: infinities can wash back out
to finite values (`1/inf = 0`, `exp(-inf) = 0`), so non-finiteness is
tracked through every operation rather than treated as absorbing.
-/

open Real MeasureTheory Set

/-- Mirrors `RequestOptionParameters` of `src/main.c`: stock price `S`,
strike `K`, time to expiration `T` (years), risk-free rate `r`,
volatility `sigma`, and the option type character (`'c'` call, `'p'` put). -/
structure RequestOptionParameters where
  S : ℝ
  K : ℝ
  T : ℝ
  r : ℝ
  sigma : ℝ
  type : Char

/-- Mirrors `ResponseOptionParameters` of `src/main.c`. -/
structure ResponseOptionParameters where
  price : ℝ
  delta : ℝ
  gamma : ℝ
  vega : ℝ
  theta : ℝ

/-- Local variable `t` of the C function `cdf`:
`t = 1.0 / (1.0 + 0.3275911 * fabs(x))`. -/
noncomputable def cdf_t (x : ℝ) : ℝ := 1.0 / (1.0 + 0.3275911 * |x|)

/-- Local variable `y` of the C function `cdf` after its second assignment:
`y = 0.39894228 * exp(-0.5*x*x) * (0.254829592*t + 0.080788966*t*t + 0.0003238188*t*t*t)`. -/
noncomputable def cdf_y (x : ℝ) : ℝ :=
  0.39894228 * Real.exp (-0.5 * x * x) *
    (0.254829592 * cdf_t x + 0.080788966 * cdf_t x * cdf_t x +
      0.0003238188 * cdf_t x * cdf_t x * cdf_t x)

/-- The C function `cdf` (lines 39-48 of `src/main.c`): the engine's
cumulative-normal approximation.  Returns `0.5 + y` for `x ≥ 0` and
`0.5 - y` otherwise. -/
noncomputable def cdf (x : ℝ) : ℝ :=
  if 0 ≤ x then 0.5 + cdf_y x else 0.5 - cdf_y x

/-- Reference semantics, following the spec's words: the standard normal
CDF, the probability that a standard normal random variable is `≤ x`,
written as the Gaussian integral normalised by `√(2π)`. -/
noncomputable def spec_normalCDF (x : ℝ) : ℝ :=
  (Real.sqrt (2 * π))⁻¹ * ∫ t in Iic x, Real.exp (-(1 / 2) * t ^ 2)

/-- The C function `calculate_standard_normal_variable_stock` (d1):
`(log(S/K) + (r + 0.5*sigma*sigma)*T) / (sigma*sqrt(T))`. -/
noncomputable def calculate_standard_normal_variable_stock
    (S K T r sigma : ℝ) : ℝ :=
  (Real.log (S / K) + (r + 0.5 * sigma * sigma) * T) / (sigma * Real.sqrt T)

/-- The C function `calculate_standard_normal_variable_strike` (d2):
`d1 - sigma*sqrt(T)` (the parameter `r` is unused in the C code too). -/
noncomputable def calculate_standard_normal_variable_strike
    (d1 T r sigma : ℝ) : ℝ :=
  d1 - sigma * Real.sqrt T

/-- The C function `calculate_european_option` (lines 59-67): the price,
switching on the type character being `'c'`. -/
noncomputable def calculate_european_option
    (d1 d2 S K T r : ℝ) (type : Char) : ℝ :=
  if type = 'c' then
    S * cdf d1 - K * Real.exp (-r * T) * cdf d2
  else
    K * Real.exp (-r * T) * cdf (-d2) - S * cdf (-d1)

/-- The C function `calculate_delta` (lines 69-74): `option_type` is `1`
for `'c'` and `-1` otherwise. -/
noncomputable def calculate_delta (d1 : ℝ) (type : Char) : ℝ :=
  let option_type : ℝ := (if type = 'c' then 1 else -1);
  option_type * cdf (option_type * d1)

/-- The C function `calculate_gamma` (lines 76-79). -/
noncomputable def calculate_gamma (d1 S T sigma : ℝ) : ℝ :=
  Real.exp (-0.5 * d1 * d1) / (S * sigma * Real.sqrt (2 * π * T))

/-- The C function `calculate_vega` (lines 81-84). -/
noncomputable def calculate_vega (d1 S T : ℝ) : ℝ :=
  S * Real.sqrt T * Real.exp (-0.5 * d1 * d1) / Real.sqrt (2 * π)

/-- The C function `calculate_theta` (lines 86-93). -/
noncomputable def calculate_theta (d1 d2 S K T r sigma : ℝ) (type : Char) : ℝ :=
  let option_type : ℝ := (if type = 'c' then 1 else -1);
  -0.5 * sigma * S * Real.exp (-0.5 * d1 * d1) / Real.sqrt (2 * π * T) -
    option_type * r * K * Real.exp (-r * T) * cdf (option_type * d2)

/-- The C function `calculateOption` (lines 95-114): computes `d1` and `d2`
once and fills every response field from that pair. -/
noncomputable def calculateOption
    (request : RequestOptionParameters) : ResponseOptionParameters :=
  let d1 := calculate_standard_normal_variable_stock
    request.S request.K request.T request.r request.sigma
  let d2 := calculate_standard_normal_variable_strike
    d1 request.T request.r request.sigma
  { price := calculate_european_option d1 d2 request.S request.K request.T
      request.r request.type
    delta := calculate_delta d1 request.type
    gamma := calculate_gamma d1 request.S request.T request.sigma
    vega := calculate_vega d1 request.S request.T
    theta := calculate_theta d1 d2 request.S request.K request.T request.r
      request.sigma request.type }

/-- IEEE-double value classes: a finite value (carried exactly as a real),
the two infinities, or NaN.  Finite overflow/underflow is idealised away
and zeros are unsigned (`fin 0`); neither affects this program's control
or data flow. -/
inductive FP where
  | fin : ℝ → FP
  | pinf : FP
  | ninf : FP
  | nan : FP

namespace FP

/-- IEEE test `x >= 0.0`: false for NaN, true for `+inf` and nonnegative
finite values (IEEE `-0.0 >= 0.0` is true, and `fin 0` stands for both
zeros). -/
noncomputable def nonneg : FP → Bool
  | nan => false
  | pinf => true
  | ninf => false
  | fin a => decide (0 ≤ a)

/-- Whether a value class is finite (neither an infinity nor NaN). -/
def isFinite : FP → Bool
  | fin _ => true
  | _ => false

/-- IEEE addition on value classes (first matching row applies). -/
noncomputable def add : FP → FP → FP
  | nan, _ => nan
  | _, nan => nan
  | pinf, ninf => nan
  | ninf, pinf => nan
  | pinf, _ => pinf
  | _, pinf => pinf
  | ninf, _ => ninf
  | _, ninf => ninf
  | fin a, fin b => fin (a + b)

/-- IEEE subtraction on value classes. -/
noncomputable def sub : FP → FP → FP
  | nan, _ => nan
  | _, nan => nan
  | pinf, pinf => nan
  | ninf, ninf => nan
  | pinf, _ => pinf
  | _, pinf => ninf
  | ninf, _ => ninf
  | _, ninf => pinf
  | fin a, fin b => fin (a - b)

/-- IEEE negation on value classes. -/
noncomputable def neg : FP → FP
  | nan => nan
  | pinf => ninf
  | ninf => pinf
  | fin a => fin (-a)

/-- IEEE multiplication on value classes: `0 * inf = NaN`, otherwise an
infinity times a nonzero value is a signed infinity. -/
noncomputable def mul : FP → FP → FP
  | nan, _ => nan
  | _, nan => nan
  | pinf, pinf => pinf
  | pinf, ninf => ninf
  | ninf, pinf => ninf
  | ninf, ninf => pinf
  | pinf, fin b => if b = 0 then nan else if 0 < b then pinf else ninf
  | fin a, pinf => if a = 0 then nan else if 0 < a then pinf else ninf
  | ninf, fin b => if b = 0 then nan else if 0 < b then ninf else pinf
  | fin a, ninf => if a = 0 then nan else if 0 < a then ninf else pinf
  | fin a, fin b => fin (a * b)

/-- IEEE division on value classes: `0/0 = inf/inf = NaN`, a nonzero
finite value over (positive) zero is a signed infinity, a finite value
over an infinity is zero. -/
noncomputable def div : FP → FP → FP
  | nan, _ => nan
  | _, nan => nan
  | pinf, pinf => nan
  | pinf, ninf => nan
  | ninf, pinf => nan
  | ninf, ninf => nan
  | pinf, fin b => if 0 ≤ b then pinf else ninf
  | ninf, fin b => if 0 ≤ b then ninf else pinf
  | fin _, pinf => fin 0
  | fin _, ninf => fin 0
  | fin a, fin b =>
      if b = 0 then (if a = 0 then nan else if 0 < a then pinf else ninf)
      else fin (a / b)

/-- IEEE `exp`: `exp(-inf) = 0`, `exp(+inf) = +inf`. -/
noncomputable def exp : FP → FP
  | nan => nan
  | pinf => pinf
  | ninf => fin 0
  | fin a => fin (Real.exp a)

/-- IEEE `log`: NaN on negative arguments, `-inf` at zero,
`log(+inf) = +inf`. -/
noncomputable def log : FP → FP
  | nan => nan
  | pinf => pinf
  | ninf => nan
  | fin a => if a < 0 then nan else if a = 0 then ninf else fin (Real.log a)

/-- IEEE `sqrt`: NaN on negative arguments, `sqrt(+inf) = +inf`. -/
noncomputable def sqrt : FP → FP
  | nan => nan
  | pinf => pinf
  | ninf => nan
  | fin a => if a < 0 then nan else fin (Real.sqrt a)

/-- IEEE `fabs`. -/
noncomputable def fabs : FP → FP
  | nan => nan
  | pinf => pinf
  | ninf => pinf
  | fin a => fin |a|

/-- The C function `cdf` on IEEE value classes, operation for
operation. -/
noncomputable def cdf (x : FP) : FP :=
  let t := div (fin 1.0) (add (fin 1.0) (mul (fin 0.3275911) (fabs x)));
  let y := mul
    (mul (fin 0.39894228) (exp (mul (mul (fin (-0.5)) x) x)))
    (add (add (mul (fin 0.254829592) t) (mul (mul (fin 0.080788966) t) t))
      (mul (mul (mul (fin 0.0003238188) t) t) t));
  if nonneg x then add (fin 0.5) y else sub (fin 0.5) y

/-- `calculate_standard_normal_variable_stock` on IEEE value classes. -/
noncomputable def d1 (S K T r sigma : FP) : FP :=
  div (add (log (div S K)) (mul (add r (mul (mul (fin 0.5) sigma) sigma)) T))
    (mul sigma (sqrt T))

/-- `calculate_standard_normal_variable_strike` on IEEE value classes. -/
noncomputable def d2 (d1v T r sigma : FP) : FP :=
  sub d1v (mul sigma (sqrt T))

/-- `calculate_european_option` on IEEE value classes. -/
noncomputable def price (d1v d2v S K T r : FP) (type : Char) : FP :=
  if type = 'c' then
    sub (mul S (cdf d1v)) (mul (mul K (exp (mul (neg r) T))) (cdf d2v))
  else
    sub (mul (mul K (exp (mul (neg r) T))) (cdf (neg d2v)))
      (mul S (cdf (neg d1v)))

/-- `calculate_delta` on IEEE value classes. -/
noncomputable def delta (d1v : FP) (type : Char) : FP :=
  let option_type : FP := (if type = 'c' then fin 1 else fin (-1));
  mul option_type (cdf (mul option_type d1v))

/-- `calculate_gamma` on IEEE value classes. -/
noncomputable def gamma (d1v S T sigma : FP) : FP :=
  div (exp (mul (mul (fin (-0.5)) d1v) d1v))
    (mul (mul S sigma) (sqrt (mul (mul (fin 2) (fin π)) T)))

/-- `calculate_vega` on IEEE value classes. -/
noncomputable def vega (d1v S T : FP) : FP :=
  div (mul (mul S (sqrt T)) (exp (mul (mul (fin (-0.5)) d1v) d1v)))
    (sqrt (mul (fin 2) (fin π)))

/-- `calculate_theta` on IEEE value classes. -/
noncomputable def theta (d1v d2v S K T r sigma : FP) (type : Char) : FP :=
  let option_type : FP := (if type = 'c' then fin 1 else fin (-1));
  sub
    (div (mul (mul (mul (fin (-0.5)) sigma) S)
        (exp (mul (mul (fin (-0.5)) d1v) d1v)))
      (sqrt (mul (mul (fin 2) (fin π)) T)))
    (mul (mul (mul (mul option_type r) K) (exp (mul (neg r) T)))
      (cdf (mul option_type d2v)))

end FP

/-- Response record on IEEE value classes. -/
structure FPResponse where
  price : FP
  delta : FP
  gamma : FP
  vega : FP
  theta : FP

/-- The C function `calculateOption` on IEEE value classes: the caller's
doubles enter as finite values and every non-finite intermediate is
tracked through the IEEE semantics of each operation. -/
noncomputable def FPcalculateOption
    (request : RequestOptionParameters) : FPResponse :=
  let d1v := FP.d1 (FP.fin request.S) (FP.fin request.K) (FP.fin request.T)
    (FP.fin request.r) (FP.fin request.sigma)
  let d2v := FP.d2 d1v (FP.fin request.T) (FP.fin request.r)
    (FP.fin request.sigma)
  { price := FP.price d1v d2v (FP.fin request.S) (FP.fin request.K)
      (FP.fin request.T) (FP.fin request.r) request.type
    delta := FP.delta d1v request.type
    gamma := FP.gamma d1v (FP.fin request.S) (FP.fin request.T)
      (FP.fin request.sigma)
    vega := FP.vega d1v (FP.fin request.S) (FP.fin request.T)
    theta := FP.theta d1v d2v (FP.fin request.S) (FP.fin request.K)
      (FP.fin request.T) (FP.fin request.r) (FP.fin request.sigma)
      request.type }

lemma cdf_t_pos (x : ℝ) : 0 < cdf_t x := by
  unfold cdf_t
  have h := abs_nonneg x
  positivity

lemma cdf_t_le_one (x : ℝ) : cdf_t x ≤ 1 := by
  unfold cdf_t
  rw [div_le_one (by positivity)]
  nlinarith [abs_nonneg x]

lemma cdf_y_nonneg (x : ℝ) : 0 ≤ cdf_y x := by
  unfold cdf_y
  have ht := cdf_t_pos x
  have he := Real.exp_pos (-0.5 * x * x)
  nlinarith [mul_pos ht ht, mul_pos (mul_pos ht ht) ht, he.le]

/-- The inner polynomial is at most the sum of its coefficients and the
exponential factor is at most `1`, so `y` never exceeds
`0.39894228 * (0.254829592 + 0.080788966 + 0.0003238188)`. -/
lemma cdf_y_le (x : ℝ) :
    cdf_y x ≤ 0.39894228 * (0.254829592 + 0.080788966 + 0.0003238188) := by
  unfold cdf_y
  have ht := cdf_t_pos x
  have ht1 := cdf_t_le_one x
  have he : Real.exp (-0.5 * x * x) ≤ 1 := by
    rw [Real.exp_le_one_iff]
    nlinarith [mul_self_nonneg x]
  have he0 := Real.exp_pos (-0.5 * x * x)
  have hP : 0.254829592 * cdf_t x + 0.080788966 * cdf_t x * cdf_t x +
      0.0003238188 * cdf_t x * cdf_t x * cdf_t x ≤
      0.254829592 + 0.080788966 + 0.0003238188 := by
    nlinarith [mul_pos ht ht, mul_pos (mul_pos ht ht) ht]
  have hP0 : 0 ≤ 0.254829592 * cdf_t x + 0.080788966 * cdf_t x * cdf_t x +
      0.0003238188 * cdf_t x * cdf_t x * cdf_t x := by
    nlinarith [mul_pos ht ht, mul_pos (mul_pos ht ht) ht]
  nlinarith [mul_le_mul he hP hP0 zero_le_one]

lemma cdf_y_neg (x : ℝ) : cdf_y (-x) = cdf_y x := by
  have habs : cdf_t (-x) = cdf_t x := by rw [cdf_t, cdf_t, abs_neg]
  unfold cdf_y
  rw [habs, show (-0.5 * -x * -x : ℝ) = -0.5 * x * x by ring]

lemma cdf_of_nonneg {x : ℝ} (h : 0 ≤ x) : cdf x = 0.5 + cdf_y x := by
  rw [cdf, if_pos h]

lemma cdf_of_neg {x : ℝ} (h : x < 0) : cdf x = 0.5 - cdf_y x := by
  rw [cdf, if_neg (not_le.mpr h)]

/-- Away from `x = 0` the two branches of `cdf` pair up exactly. -/
lemma cdf_add_cdf_neg {x : ℝ} (h : x ≠ 0) : cdf x + cdf (-x) = 1 := by
  rcases h.lt_or_lt with hx | hx
  · rw [cdf_of_neg hx, cdf_of_nonneg (by linarith : (0:ℝ) ≤ -x), cdf_y_neg]
    ring
  · rw [cdf_of_nonneg hx.le, cdf_of_neg (by linarith : -x < 0), cdf_y_neg]
    ring

/-- Global deviation bound: `cdf` never strays from `0.5` by more than the
sum-of-coefficients bound on `y`. -/
lemma abs_cdf_sub_half_le (x : ℝ) :
    |cdf x - 0.5| ≤ 0.39894228 * (0.254829592 + 0.080788966 + 0.0003238188) := by
  rcases le_or_lt 0 x with hx | hx
  · rw [cdf_of_nonneg hx]
    rw [show (0.5 + cdf_y x - 0.5 : ℝ) = cdf_y x by ring,
      abs_of_nonneg (cdf_y_nonneg x)]
    exact cdf_y_le x
  · rw [cdf_of_neg hx]
    rw [show (0.5 - cdf_y x - 0.5 : ℝ) = -(cdf_y x) by ring, abs_neg,
      abs_of_nonneg (cdf_y_nonneg x)]
    exact cdf_y_le x

lemma cdf_le_ub (x : ℝ) : cdf x ≤ 0.634022 := by
  have h := abs_cdf_sub_half_le x
  have h2 := abs_le.mp h
  norm_num at h2 ⊢
  linarith [h2.2]

lemma cdf_ge_lb (x : ℝ) : 0.365978 ≤ cdf x := by
  have h := abs_cdf_sub_half_le x
  have h2 := abs_le.mp h
  norm_num at h2 ⊢
  linarith [h2.1]

lemma cdf_nonneg (x : ℝ) : 0 ≤ cdf x := le_trans (by norm_num) (cdf_ge_lb x)

lemma cdf_le_one (x : ℝ) : cdf x ≤ 1 := le_trans (cdf_le_ub x) (by norm_num)

/-- Value of `cdf` at `0`: both `t` and the exponential evaluate to `1`,
so the result is `0.5` plus the full coefficient sum scaled by `0.39894228`. -/
lemma cdf_zero_eval :
    cdf 0 = 0.5 + 0.39894228 * (0.254829592 + 0.080788966 + 0.0003238188) := by
  rw [cdf_of_nonneg le_rfl]
  unfold cdf_y cdf_t
  norm_num

lemma integral_Iic_zero_gaussian :
    (∫ t in Iic (0 : ℝ), Real.exp (-(1 / 2) * t ^ 2)) = Real.sqrt (2 * π) / 2 := by
  have heven : (∫ t in Iic (0 : ℝ), Real.exp (-(1 / 2) * t ^ 2)) =
      ∫ t in Ioi (-(0 : ℝ)), Real.exp (-(1 / 2) * t ^ 2) := by
    rw [← integral_comp_neg_Iic (0 : ℝ) (fun t => Real.exp (-(1 / 2) * t ^ 2))]
    congr 1
    funext t
    rw [neg_sq]
  rw [heven, neg_zero, integral_gaussian_Ioi (1 / 2)]
  rw [show (π / (1 / 2) : ℝ) = 2 * π by ring]

lemma spec_normalCDF_zero : spec_normalCDF 0 = 1 / 2 := by
  unfold spec_normalCDF
  rw [integral_Iic_zero_gaussian]
  have h : Real.sqrt (2 * π) ≠ 0 :=
    ne_of_gt (Real.sqrt_pos.mpr (by positivity))
  field_simp

lemma calculateOption_price (request : RequestOptionParameters) :
    (calculateOption request).price =
      calculate_european_option
        (calculate_standard_normal_variable_stock request.S request.K
          request.T request.r request.sigma)
        (calculate_standard_normal_variable_strike
          (calculate_standard_normal_variable_stock request.S request.K
            request.T request.r request.sigma) request.T request.r request.sigma)
        request.S request.K request.T request.r request.type := rfl

lemma calculateOption_delta (request : RequestOptionParameters) :
    (calculateOption request).delta =
      calculate_delta
        (calculate_standard_normal_variable_stock request.S request.K
          request.T request.r request.sigma) request.type := rfl

lemma calculateOption_gamma (request : RequestOptionParameters) :
    (calculateOption request).gamma =
      calculate_gamma
        (calculate_standard_normal_variable_stock request.S request.K
          request.T request.r request.sigma)
        request.S request.T request.sigma := rfl

lemma calculateOption_vega (request : RequestOptionParameters) :
    (calculateOption request).vega =
      calculate_vega
        (calculate_standard_normal_variable_stock request.S request.K
          request.T request.r request.sigma) request.S request.T := rfl

lemma calculateOption_theta (request : RequestOptionParameters) :
    (calculateOption request).theta =
      calculate_theta
        (calculate_standard_normal_variable_stock request.S request.K
          request.T request.r request.sigma)
        (calculate_standard_normal_variable_strike
          (calculate_standard_normal_variable_stock request.S request.K
            request.T request.r request.sigma) request.T request.r request.sigma)
        request.S request.K request.T request.r request.sigma request.type := rfl

lemma calculate_delta_call (d1 : ℝ) : calculate_delta d1 'c' = cdf d1 := by
  unfold calculate_delta
  norm_num

lemma calculate_delta_put (d1 : ℝ) : calculate_delta d1 'p' = -cdf (-d1) := by
  have hc : ¬('p' = 'c') := by decide
  unfold calculate_delta
  norm_num [hc]

/-- C1: the spec claims the engine's `cdf` agrees with the true standard
normal CDF to within about `1e-7` for every real `x`.  This fails: at
`x = 0` the engine returns `0.5 + 0.39894228·(0.254829592 + 0.080788966 +
0.0003238188) ≈ 0.634` while the true CDF value is `0.5`, an absolute
error of about `0.134`. -/
theorem c1_cdf_far_from_normal_at_zero :
    1e-7 < |cdf 0 - spec_normalCDF 0| := by
  rw [cdf_zero_eval, spec_normalCDF_zero]
  rw [show (0.5 + 0.39894228 * (0.254829592 + 0.080788966 + 0.0003238188) -
      1 / 2 : ℝ) = 0.39894228 * (0.254829592 + 0.080788966 + 0.0003238188)
    by ring]
  rw [abs_of_pos (by norm_num)]
  norm_num

/-- C4 counterexample: at `x = 0` both calls take the `x ≥ 0` branch, so
`cdf 0 + cdf (-0) = 1 + 2·y(0) ≈ 1.268`, violating the claimed `1e-7`
tolerance. -/
theorem c4_counterexample : 1e-7 < |cdf 0 + cdf (-0) - 1| := by
  rw [neg_zero, cdf_zero_eval]
  rw [show (0.5 + 0.39894228 * (0.254829592 + 0.080788966 + 0.0003238188) +
      (0.5 + 0.39894228 * (0.254829592 + 0.080788966 + 0.0003238188)) -
      1 : ℝ) =
      2 * (0.39894228 * (0.254829592 + 0.080788966 + 0.0003238188)) by ring]
  rw [abs_of_pos (by norm_num)]
  norm_num

/-- C4 (amended): for every nonzero real `x`, `cdf x + cdf (-x) = 1`
exactly (hence within any tolerance); the claim fails only at `x = 0`. -/
theorem c4_cdf_symmetry (x : ℝ) (hx : x ≠ 0) : cdf x + cdf (-x) = 1 :=
  cdf_add_cdf_neg hx

/-- Witness for `c4_cdf_symmetry` at `x = 1`. -/
theorem c4_cdf_symmetry_witness : cdf 1 + cdf (-1) = 1 :=
  c4_cdf_symmetry 1 (by norm_num)

/-- C10: for every real `x` the engine's `cdf` deviates from `0.5` by at
most `0.39894228·(0.254829592 + 0.080788966 + 0.0003238188) ≈ 0.13403`, so
it never leaves `[0.3659, 0.6341]`, and consequently a call delta computed
from any `d1` never exceeds `0.6341`. -/
theorem c10_cdf_band (x : ℝ) :
    |cdf x - 0.5| ≤
      0.39894228 * (0.254829592 + 0.080788966 + 0.0003238188) ∧
    0.3659 ≤ cdf x ∧ cdf x ≤ 0.6341 ∧ calculate_delta x 'c' ≤ 0.6341 := by
  refine ⟨abs_cdf_sub_half_le x, ?_, ?_, ?_⟩
  · exact le_trans (by norm_num) (cdf_ge_lb x)
  · exact le_trans (cdf_le_ub x) (by norm_num)
  · rw [calculate_delta_call]
    exact le_trans (cdf_le_ub x) (by norm_num)

/-- C6: for positive `S`, `K`, `T`, `sigma` the call delta lies in `[0,1]`
and the put delta lies in `[-1,0]` (delta is `sign·cdf(sign·d1)`). -/
theorem c6_delta_bounds (S K T r sigma : ℝ)
    (hS : 0 < S) (hK : 0 < K) (hT : 0 < T) (hsigma : 0 < sigma) :
    (0 ≤ (calculateOption ⟨S, K, T, r, sigma, 'c'⟩).delta ∧
      (calculateOption ⟨S, K, T, r, sigma, 'c'⟩).delta ≤ 1) ∧
    (-1 ≤ (calculateOption ⟨S, K, T, r, sigma, 'p'⟩).delta ∧
      (calculateOption ⟨S, K, T, r, sigma, 'p'⟩).delta ≤ 0) := by
  simp only [calculateOption_delta]
  rw [calculate_delta_call, calculate_delta_put]
  refine ⟨⟨cdf_nonneg _, cdf_le_one _⟩, ?_, ?_⟩
  · exact neg_le_neg (cdf_le_one _)
  · exact neg_nonpos.mpr (cdf_nonneg _)

/-- Witness for `c6_delta_bounds` at `S = K = 100`, `T = 1`, `r = 0.05`,
`sigma = 0.2`. -/
theorem c6_delta_bounds_witness :
    (0 ≤ (calculateOption ⟨100, 100, 1, 0.05, 0.2, 'c'⟩).delta ∧
      (calculateOption ⟨100, 100, 1, 0.05, 0.2, 'c'⟩).delta ≤ 1) ∧
    (-1 ≤ (calculateOption ⟨100, 100, 1, 0.05, 0.2, 'p'⟩).delta ∧
      (calculateOption ⟨100, 100, 1, 0.05, 0.2, 'p'⟩).delta ≤ 0) :=
  c6_delta_bounds 100 100 1 0.05 0.2 (by norm_num) (by norm_num)
    (by norm_num) (by norm_num)

/-- C9: for any option-type character other than `'c'` the engine's price,
delta and theta coincide exactly with those of a put on the same
parameters; no out-of-enum type is ever rejected. -/
theorem c9_noncall_is_put (S K T r sigma : ℝ) (ty : Char) (h : ty ≠ 'c') :
    (calculateOption ⟨S, K, T, r, sigma, ty⟩).price =
      (calculateOption ⟨S, K, T, r, sigma, 'p'⟩).price ∧
    (calculateOption ⟨S, K, T, r, sigma, ty⟩).delta =
      (calculateOption ⟨S, K, T, r, sigma, 'p'⟩).delta ∧
    (calculateOption ⟨S, K, T, r, sigma, ty⟩).theta =
      (calculateOption ⟨S, K, T, r, sigma, 'p'⟩).theta := by
  have hp : ¬('p' = 'c') := by decide
  refine ⟨?_, ?_, ?_⟩
  · simp only [calculateOption_price]
    unfold calculate_european_option
    rw [if_neg h, if_neg hp]
  · simp only [calculateOption_delta]
    unfold calculate_delta
    rw [if_neg h, if_neg hp]
  · simp only [calculateOption_theta]
    unfold calculate_theta
    rw [if_neg h, if_neg hp]

/-- Witness for `c9_noncall_is_put` with the out-of-enum character
`'x'`. -/
theorem c9_noncall_is_put_witness :
    (calculateOption ⟨1, 2, 3, 4, 5, 'x'⟩).price =
      (calculateOption ⟨1, 2, 3, 4, 5, 'p'⟩).price ∧
    (calculateOption ⟨1, 2, 3, 4, 5, 'x'⟩).delta =
      (calculateOption ⟨1, 2, 3, 4, 5, 'p'⟩).delta ∧
    (calculateOption ⟨1, 2, 3, 4, 5, 'x'⟩).theta =
      (calculateOption ⟨1, 2, 3, 4, 5, 'p'⟩).theta :=
  c9_noncall_is_put 1 2 3 4 5 'x' (by decide)

lemma calculateOption_price_call (S K T r sigma : ℝ) :
    (calculateOption ⟨S, K, T, r, sigma, 'c'⟩).price =
      S * cdf (calculate_standard_normal_variable_stock S K T r sigma) -
        K * Real.exp (-r * T) *
          cdf (calculate_standard_normal_variable_strike
            (calculate_standard_normal_variable_stock S K T r sigma)
            T r sigma) := rfl

lemma calculateOption_price_put (S K T r sigma : ℝ) :
    (calculateOption ⟨S, K, T, r, sigma, 'p'⟩).price =
      K * Real.exp (-r * T) *
          cdf (-(calculate_standard_normal_variable_strike
            (calculate_standard_normal_variable_stock S K T r sigma)
            T r sigma)) -
        S * cdf (-(calculate_standard_normal_variable_stock S K T r sigma)) :=
  rfl

lemma d1_scenario :
    calculate_standard_normal_variable_stock 100 100 1 0.05 0.2 = 0.35 := by
  unfold calculate_standard_normal_variable_stock
  rw [show (100 : ℝ) / 100 = 1 by norm_num, Real.log_one, Real.sqrt_one]
  norm_num

lemma d2_scenario :
    calculate_standard_normal_variable_strike 0.35 1 0.05 0.2 = 0.15 := by
  unfold calculate_standard_normal_variable_strike
  rw [Real.sqrt_one]
  norm_num

lemma d1_parityCE :
    calculate_standard_normal_variable_stock 1 1 1 (-2) 2 = 0 := by
  unfold calculate_standard_normal_variable_stock
  rw [show (1 : ℝ) / 1 = 1 by norm_num, Real.log_one, Real.sqrt_one]
  norm_num

lemma d2_parityCE :
    calculate_standard_normal_variable_strike 0 1 (-2) 2 = -2 := by
  unfold calculate_standard_normal_variable_strike
  rw [Real.sqrt_one]
  norm_num

/-- C5: for positive inputs the engine computes
`d1 = (ln(S/K) + (r + 0.5·sigma²)·T)/(sigma·√T)` and `d2 = d1 - sigma·√T`,
and every one of the five outputs of `calculateOption` is the
corresponding formula applied to that same single `d1`/`d2` pair. -/
theorem c5_single_d1_d2_pair (S K T r sigma : ℝ) (ty : Char)
    (hS : 0 < S) (hK : 0 < K) (hT : 0 < T) (hsigma : 0 < sigma) :
    calculate_standard_normal_variable_stock S K T r sigma =
      (Real.log (S / K) + (r + 0.5 * sigma ^ 2) * T) /
        (sigma * Real.sqrt T) ∧
    calculate_standard_normal_variable_strike
        (calculate_standard_normal_variable_stock S K T r sigma) T r sigma =
      calculate_standard_normal_variable_stock S K T r sigma -
        sigma * Real.sqrt T ∧
    calculateOption ⟨S, K, T, r, sigma, ty⟩ =
      { price := calculate_european_option
          (calculate_standard_normal_variable_stock S K T r sigma)
          (calculate_standard_normal_variable_strike
            (calculate_standard_normal_variable_stock S K T r sigma)
            T r sigma) S K T r ty
        delta := calculate_delta
          (calculate_standard_normal_variable_stock S K T r sigma) ty
        gamma := calculate_gamma
          (calculate_standard_normal_variable_stock S K T r sigma) S T sigma
        vega := calculate_vega
          (calculate_standard_normal_variable_stock S K T r sigma) S T
        theta := calculate_theta
          (calculate_standard_normal_variable_stock S K T r sigma)
          (calculate_standard_normal_variable_strike
            (calculate_standard_normal_variable_stock S K T r sigma)
            T r sigma) S K T r sigma ty } := by
  refine ⟨?_, rfl, rfl⟩
  unfold calculate_standard_normal_variable_stock
  ring_nf

/-- Witness for `c5_single_d1_d2_pair` at concrete positive inputs. -/
theorem c5_single_d1_d2_pair_witness :
    calculate_standard_normal_variable_stock 1 2 3 4 5 =
      (Real.log (1 / 2) + (4 + 0.5 * 5 ^ 2) * 3) / (5 * Real.sqrt 3) ∧
    calculate_standard_normal_variable_strike
        (calculate_standard_normal_variable_stock 1 2 3 4 5) 3 4 5 =
      calculate_standard_normal_variable_stock 1 2 3 4 5 -
        5 * Real.sqrt 3 ∧
    calculateOption ⟨1, 2, 3, 4, 5, 'c'⟩ =
      { price := calculate_european_option
          (calculate_standard_normal_variable_stock 1 2 3 4 5)
          (calculate_standard_normal_variable_strike
            (calculate_standard_normal_variable_stock 1 2 3 4 5)
            3 4 5) 1 2 3 4 'c'
        delta := calculate_delta
          (calculate_standard_normal_variable_stock 1 2 3 4 5) 'c'
        gamma := calculate_gamma
          (calculate_standard_normal_variable_stock 1 2 3 4 5) 1 3 5
        vega := calculate_vega
          (calculate_standard_normal_variable_stock 1 2 3 4 5) 1 3
        theta := calculate_theta
          (calculate_standard_normal_variable_stock 1 2 3 4 5)
          (calculate_standard_normal_variable_strike
            (calculate_standard_normal_variable_stock 1 2 3 4 5)
            3 4 5) 1 2 3 4 5 'c' } :=
  c5_single_d1_d2_pair 1 2 3 4 5 'c' (by norm_num) (by norm_num)
    (by norm_num) (by norm_num)

/-- C3 counterexample: at `S = K = 1`, `T = 1`, `r = -2`, `sigma = 2` the
engine's `d1` is exactly `0`, the branch asymmetry of `cdf` at `0` breaks
the pairing, and the parity defect is `2·y(0) ≈ 0.268`, far above the
claimed `1e-6` tolerance. -/
theorem c3_parity_counterexample :
    1e-6 < |((calculateOption ⟨1, 1, 1, -2, 2, 'c'⟩).price -
        (calculateOption ⟨1, 1, 1, -2, 2, 'p'⟩).price) -
      (1 - 1 * Real.exp (-(-2) * 1))| := by
  have hc : (calculateOption ⟨1, 1, 1, -2, 2, 'c'⟩).price =
      cdf 0 - Real.exp 2 * cdf (-2) := by
    rw [calculateOption_price_call, d1_parityCE, d2_parityCE]
    norm_num
  have hp : (calculateOption ⟨1, 1, 1, -2, 2, 'p'⟩).price =
      Real.exp 2 * cdf 2 - cdf 0 := by
    rw [calculateOption_price_put, d1_parityCE, d2_parityCE]
    norm_num
  have hsum : cdf (-2) + cdf 2 = 1 := by
    have h := cdf_add_cdf_neg (show (-2 : ℝ) ≠ 0 by norm_num)
    rw [neg_neg] at h
    exact h
  rw [hc, hp]
  rw [show (cdf 0 - Real.exp 2 * cdf (-2) - (Real.exp 2 * cdf 2 - cdf 0) -
      (1 - 1 * Real.exp (-(-2) * 1)) : ℝ) =
      2 * cdf 0 - 1 - (cdf (-2) + cdf 2 - 1) * Real.exp 2 by
    rw [show (-(-2) * 1 : ℝ) = 2 by norm_num]; ring]
  rw [hsum, cdf_zero_eval]
  rw [show (2 * (0.5 + 0.39894228 * (0.254829592 + 0.080788966 +
      0.0003238188)) - 1 - (1 - 1) * Real.exp 2 : ℝ) =
      2 * (0.39894228 * (0.254829592 + 0.080788966 + 0.0003238188)) by ring]
  rw [abs_of_pos (by norm_num)]
  norm_num

/-- C3 (amended): for positive `S`, `K`, `T`, `sigma` and any `r`, put-call
parity `call - put = S - K·e^(-rT)` holds exactly PROVIDED the engine's
`d1` and `d2` are both nonzero; the claim fails only when `d1 = 0` or
`d2 = 0` (see the counterexample). -/
theorem c3_put_call_parity (S K T r sigma : ℝ)
    (hS : 0 < S) (hK : 0 < K) (hT : 0 < T) (hsigma : 0 < sigma)
    (hd1 : calculate_standard_normal_variable_stock S K T r sigma ≠ 0)
    (hd2 : calculate_standard_normal_variable_strike
      (calculate_standard_normal_variable_stock S K T r sigma)
      T r sigma ≠ 0) :
    (calculateOption ⟨S, K, T, r, sigma, 'c'⟩).price -
      (calculateOption ⟨S, K, T, r, sigma, 'p'⟩).price =
      S - K * Real.exp (-r * T) := by
  rw [calculateOption_price_call, calculateOption_price_put]
  linear_combination S * cdf_add_cdf_neg hd1 -
    (K * Real.exp (-r * T)) * cdf_add_cdf_neg hd2

/-- Witness for `c3_put_call_parity` at `S = K = 100`, `T = 1`,
`r = 0.05`, `sigma = 0.2` (there `d1 = 0.35` and `d2 = 0.15`). -/
theorem c3_put_call_parity_witness :
    (calculateOption ⟨100, 100, 1, 0.05, 0.2, 'c'⟩).price -
      (calculateOption ⟨100, 100, 1, 0.05, 0.2, 'p'⟩).price =
      100 - 100 * Real.exp (-(0.05) * 1) :=
  c3_put_call_parity 100 100 1 0.05 0.2 (by norm_num) (by norm_num)
    (by norm_num) (by norm_num)
    (by rw [d1_scenario]; norm_num)
    (by rw [d1_scenario, d2_scenario]; norm_num)

lemma cdf_d1_scenario_ub : cdf 0.35 ≤ 0.6173 := by
  rw [cdf_of_nonneg (by norm_num : (0 : ℝ) ≤ 0.35)]
  have ht_pos := cdf_t_pos 0.35
  have ht_ub : cdf_t 0.35 ≤ 0.89714 := by
    unfold cdf_t
    rw [abs_of_nonneg (by norm_num : (0 : ℝ) ≤ 0.35),
      div_le_iff (by norm_num)]
    norm_num
  have ht2 : cdf_t 0.35 * cdf_t 0.35 ≤ 0.89714 * 0.89714 :=
    mul_le_mul ht_ub ht_ub ht_pos.le (by norm_num)
  have ht3 : cdf_t 0.35 * cdf_t 0.35 * cdf_t 0.35 ≤
      0.89714 * 0.89714 * 0.89714 :=
    mul_le_mul ht2 ht_ub ht_pos.le (by norm_num)
  have hE : Real.exp (-0.5 * 0.35 * 0.35) ≤ 1 := by
    rw [Real.exp_le_one_iff]
    norm_num
  have hE0 := Real.exp_pos (-0.5 * 0.35 * 0.35)
  have hP : 0.254829592 * cdf_t 0.35 + 0.080788966 * cdf_t 0.35 * cdf_t 0.35 +
      0.0003238188 * cdf_t 0.35 * cdf_t 0.35 * cdf_t 0.35 ≤
      0.254829592 * 0.89714 + 0.080788966 * (0.89714 * 0.89714) +
        0.0003238188 * (0.89714 * 0.89714 * 0.89714) := by
    nlinarith [ht_ub, ht2, ht3]
  have hP0 : 0 ≤ 0.254829592 * cdf_t 0.35 +
      0.080788966 * cdf_t 0.35 * cdf_t 0.35 +
      0.0003238188 * cdf_t 0.35 * cdf_t 0.35 * cdf_t 0.35 := by
    nlinarith [ht_pos, mul_pos ht_pos ht_pos,
      mul_pos (mul_pos ht_pos ht_pos) ht_pos]
  unfold cdf_y
  nlinarith [mul_le_mul hE hP hP0 zero_le_one]

lemma cdf_d2_scenario_lb : 0.6248 ≤ cdf 0.15 := by
  rw [cdf_of_nonneg (by norm_num : (0 : ℝ) ≤ 0.15)]
  have ht_pos := cdf_t_pos 0.15
  have ht_lb : 0.95315 ≤ cdf_t 0.15 := by
    unfold cdf_t
    rw [abs_of_nonneg (by norm_num : (0 : ℝ) ≤ 0.15),
      le_div_iff (by norm_num)]
    norm_num
  have ht2 : 0.95315 * 0.95315 ≤ cdf_t 0.15 * cdf_t 0.15 :=
    mul_le_mul ht_lb ht_lb (by norm_num) ht_pos.le
  have ht3 : 0.95315 * 0.95315 * 0.95315 ≤
      cdf_t 0.15 * cdf_t 0.15 * cdf_t 0.15 :=
    mul_le_mul ht2 ht_lb (by norm_num) (mul_nonneg ht_pos.le ht_pos.le)
  have hE : (0.98875 : ℝ) ≤ Real.exp (-0.5 * 0.15 * 0.15) := by
    have h := Real.add_one_le_exp (-0.01125 : ℝ)
    rw [show (-0.5 * 0.15 * 0.15 : ℝ) = -0.01125 by norm_num]
    linarith
  have hP : 0.254829592 * 0.95315 + 0.080788966 * (0.95315 * 0.95315) +
      0.0003238188 * (0.95315 * 0.95315 * 0.95315) ≤
      0.254829592 * cdf_t 0.15 + 0.080788966 * cdf_t 0.15 * cdf_t 0.15 +
        0.0003238188 * cdf_t 0.15 * cdf_t 0.15 * cdf_t 0.15 := by
    nlinarith [ht_lb, ht2, ht3]
  unfold cdf_y
  nlinarith [mul_le_mul hE hP (by norm_num) (Real.exp_pos _).le]

/-- C2: the spec's concrete scenario `S = K = 100`, `T = 1`, `r = 0.05`,
`sigma = 0.2`, call, claims `price ≈ 10.45` within `±0.05`.  The engine's
price is in fact about `1.59` (its broken `cdf` makes `N(0.15) > N(0.35)`),
so the claimed tolerance is missed by more than `8`. -/
theorem c2_scenario_price_wrong :
    0.05 < |(calculateOption ⟨100, 100, 1, 0.05, 0.2, 'c'⟩).price - 10.45| := by
  have hprice : (calculateOption ⟨100, 100, 1, 0.05, 0.2, 'c'⟩).price =
      100 * cdf 0.35 - 100 * Real.exp (-(0.05) * 1) * cdf 0.15 := by
    rw [calculateOption_price_call, d1_scenario, d2_scenario]
  have hexp : (0.95 : ℝ) ≤ Real.exp (-(0.05) * 1) := by
    have h := Real.add_one_le_exp (-0.05 : ℝ)
    rw [show (-(0.05) * 1 : ℝ) = -0.05 by norm_num]
    linarith
  have hub : (calculateOption ⟨100, 100, 1, 0.05, 0.2, 'c'⟩).price ≤ 2.4 := by
    rw [hprice]
    have h1 : 0.95 * 0.6248 ≤ Real.exp (-(0.05) * 1) * cdf 0.15 :=
      mul_le_mul hexp cdf_d2_scenario_lb (by norm_num)
        (le_trans (by norm_num) hexp)
    nlinarith [cdf_d1_scenario_ub, h1]
  calc (0.05 : ℝ) < 10.45 - 2.4 := by norm_num
    _ ≤ 10.45 - (calculateOption ⟨100, 100, 1, 0.05, 0.2, 'c'⟩).price := by
        linarith
    _ = -((calculateOption ⟨100, 100, 1, 0.05, 0.2, 'c'⟩).price - 10.45) := by
        ring
    _ ≤ |(calculateOption ⟨100, 100, 1, 0.05, 0.2, 'c'⟩).price - 10.45| :=
        neg_le_abs _

lemma sqrt_T_boundary : Real.sqrt 1e-6 = 1e-3 := by
  rw [show (1e-6 : ℝ) = (1e-3 : ℝ) ^ 2 by norm_num,
    Real.sqrt_sq (by norm_num : (0 : ℝ) ≤ 1e-3)]

lemma d1_boundary_eval :
    calculate_standard_normal_variable_stock 200 100 1e-6 0 0.2 =
      (Real.log 2 + (0 + 0.5 * 0.2 * 0.2) * 1e-6) / (0.2 * 1e-3) := by
  unfold calculate_standard_normal_variable_stock
  rw [show (200 : ℝ) / 100 = 2 by norm_num, sqrt_T_boundary]

lemma d1_boundary_lb :
    2e-4 ≤ calculate_standard_normal_variable_stock 200 100 1e-6 0 0.2 := by
  rw [d1_boundary_eval, le_div_iff (by norm_num)]
  have h := Real.log_two_gt_d9
  norm_num
  linarith

/-- C7: the spec claims that at `T = 1e-6` the call price is within `1e-2`
of the intrinsic value `max(S-K, 0)`.  At `S = 200`, `K = 100`, `r = 0`,
`sigma = 0.2` the intrinsic value is `100` but the engine's price is below
`76.9` (its `cdf` tends to `0.5` instead of `1` for large arguments), so
the claim fails by more than `23`. -/
theorem c7_boundary_intrinsic_fails :
    1e-2 < |(calculateOption ⟨200, 100, 1e-6, 0, 0.2, 'c'⟩).price -
      max (200 - 100) 0| := by
  have hd2eq : calculate_standard_normal_variable_strike
      (calculate_standard_normal_variable_stock 200 100 1e-6 0 0.2)
      1e-6 0 0.2 =
      calculate_standard_normal_variable_stock 200 100 1e-6 0 0.2 - 2e-4 := by
    unfold calculate_standard_normal_variable_strike
    rw [sqrt_T_boundary]
    norm_num
  have hd2pos : 0 ≤ calculate_standard_normal_variable_strike
      (calculate_standard_normal_variable_stock 200 100 1e-6 0 0.2)
      1e-6 0 0.2 := by
    rw [hd2eq]
    linarith [d1_boundary_lb]
  have hprice : (calculateOption ⟨200, 100, 1e-6, 0, 0.2, 'c'⟩).price =
      200 * cdf (calculate_standard_normal_variable_stock 200 100 1e-6 0 0.2) -
        100 * cdf (calculate_standard_normal_variable_strike
          (calculate_standard_normal_variable_stock 200 100 1e-6 0 0.2)
          1e-6 0 0.2) := by
    rw [calculateOption_price_call]
    rw [show (-(0 : ℝ) * 1e-6) = 0 by norm_num, Real.exp_zero]
    ring
  have hcdf2 : (0.5 : ℝ) ≤ cdf (calculate_standard_normal_variable_strike
      (calculate_standard_normal_variable_stock 200 100 1e-6 0 0.2)
      1e-6 0 0.2) := by
    rw [cdf_of_nonneg hd2pos]
    linarith [cdf_y_nonneg (calculate_standard_normal_variable_strike
      (calculate_standard_normal_variable_stock 200 100 1e-6 0 0.2)
      1e-6 0 0.2)]
  have hub : (calculateOption ⟨200, 100, 1e-6, 0, 0.2, 'c'⟩).price ≤ 76.9 := by
    rw [hprice]
    have h1 := cdf_le_ub
      (calculate_standard_normal_variable_stock 200 100 1e-6 0 0.2)
    nlinarith [hcdf2, h1]
  have hmax : (max (200 - 100) 0 : ℝ) = 100 := by norm_num
  rw [hmax]
  calc (1e-2 : ℝ) < 100 - 76.9 := by norm_num
    _ ≤ 100 - (calculateOption ⟨200, 100, 1e-6, 0, 0.2, 'c'⟩).price := by
        linarith
    _ = -((calculateOption ⟨200, 100, 1e-6, 0, 0.2, 'c'⟩).price - 100) := by
        ring
    _ ≤ |(calculateOption ⟨200, 100, 1e-6, 0, 0.2, 'c'⟩).price - 100| :=
        neg_le_abs _
lemma fp_add_fin (a b : ℝ) : FP.add (FP.fin a) (FP.fin b) = FP.fin (a + b) := rfl

lemma fp_sub_fin (a b : ℝ) : FP.sub (FP.fin a) (FP.fin b) = FP.fin (a - b) := rfl

lemma fp_mul_fin (a b : ℝ) : FP.mul (FP.fin a) (FP.fin b) = FP.fin (a * b) := rfl

lemma fp_neg_fin (a : ℝ) : FP.neg (FP.fin a) = FP.fin (-a) := rfl

lemma fp_exp_fin (a : ℝ) : FP.exp (FP.fin a) = FP.fin (Real.exp a) := rfl

lemma fp_fabs_fin (a : ℝ) : FP.fabs (FP.fin a) = FP.fin |a| := rfl

lemma fp_div_fin (a : ℝ) {b : ℝ} (h : b ≠ 0) :
    FP.div (FP.fin a) (FP.fin b) = FP.fin (a / b) := by
  simp only [FP.div]
  rw [if_neg h]

lemma fp_log_fin {a : ℝ} (h : 0 < a) :
    FP.log (FP.fin a) = FP.fin (Real.log a) := by
  simp only [FP.log]
  rw [if_neg (not_lt.mpr h.le), if_neg h.ne']

lemma fp_log_fin_neg {a : ℝ} (h : a < 0) : FP.log (FP.fin a) = FP.nan := by
  simp only [FP.log]
  rw [if_pos h]

lemma fp_log_fin_zero : FP.log (FP.fin 0) = FP.ninf := by
  simp [FP.log]

lemma fp_sqrt_fin {a : ℝ} (h : 0 ≤ a) :
    FP.sqrt (FP.fin a) = FP.fin (Real.sqrt a) := by
  simp only [FP.sqrt]
  rw [if_neg (not_lt.mpr h)]

lemma fp_sqrt_fin_neg {a : ℝ} (h : a < 0) : FP.sqrt (FP.fin a) = FP.nan := by
  simp only [FP.sqrt]
  rw [if_pos h]

lemma fp_add_nan (x : FP) : FP.add FP.nan x = FP.nan := by cases x <;> rfl

lemma fp_sub_nan (x : FP) : FP.sub FP.nan x = FP.nan := by cases x <;> rfl

lemma fp_mul_nan (x : FP) : FP.mul FP.nan x = FP.nan := by cases x <;> rfl

lemma fp_mul_nan' (x : FP) : FP.mul x FP.nan = FP.nan := by cases x <;> rfl

lemma fp_div_nan (x : FP) : FP.div FP.nan x = FP.nan := by cases x <;> rfl

lemma fp_mul_fin_pinf {a : ℝ} (h : 0 < a) :
    FP.mul (FP.fin a) FP.pinf = FP.pinf := by
  simp only [FP.mul]
  rw [if_neg h.ne', if_pos h]

lemma fp_mul_fin_pinf_neg {a : ℝ} (h : a < 0) :
    FP.mul (FP.fin a) FP.pinf = FP.ninf := by
  simp only [FP.mul]
  rw [if_neg h.ne, if_neg (not_lt.mpr h.le)]

lemma fp_mul_fin_ninf_neg {a : ℝ} (h : a < 0) :
    FP.mul (FP.fin a) FP.ninf = FP.pinf := by
  simp only [FP.mul]
  rw [if_neg h.ne, if_neg (not_lt.mpr h.le)]

lemma fp_add_fin_pinf (a : ℝ) : FP.add (FP.fin a) FP.pinf = FP.pinf := rfl

lemma fp_add_ninf_fin (a : ℝ) : FP.add FP.ninf (FP.fin a) = FP.ninf := rfl

lemma fp_add_pinf_fin (a : ℝ) : FP.add FP.pinf (FP.fin a) = FP.pinf := rfl

lemma fp_sub_pinf_fin (a : ℝ) : FP.sub FP.pinf (FP.fin a) = FP.pinf := rfl

lemma fp_div_fin_pinf (a : ℝ) : FP.div (FP.fin a) FP.pinf = FP.fin 0 := rfl

lemma fp_div_fin_zero_pos {a : ℝ} (h : 0 < a) :
    FP.div (FP.fin a) (FP.fin 0) = FP.pinf := by
  simp only [FP.div, if_true]
  rw [if_neg h.ne', if_pos h]

lemma fp_div_pinf_fin {b : ℝ} (h : 0 ≤ b) :
    FP.div FP.pinf (FP.fin b) = FP.pinf := by
  simp only [FP.div]
  rw [if_pos h]

lemma fp_div_by_fin_zero_not_finite (n : FP) :
    (FP.div n (FP.fin 0)).isFinite = false := by
  cases n with
  | fin a =>
      simp only [FP.div, if_true]
      split_ifs <;> rfl
  | pinf =>
      simp only [FP.div]
      rw [if_pos le_rfl]
      rfl
  | ninf =>
      simp only [FP.div]
      rw [if_pos le_rfl]
      rfl
  | nan => rfl

lemma fp_div_ninf_fin_not_finite (c : ℝ) :
    (FP.div FP.ninf (FP.fin c)).isFinite = false := by
  simp only [FP.div]
  split_ifs <;> rfl

lemma fp_nonneg_true {x : ℝ} (h : 0 ≤ x) :
    FP.nonneg (FP.fin x) = true := by
  rw [show FP.nonneg (FP.fin x) = decide (0 ≤ x) from rfl]
  exact decide_eq_true h

lemma fp_nonneg_false {x : ℝ} (h : x < 0) :
    ¬ (FP.nonneg (FP.fin x) = true) := by
  rw [show FP.nonneg (FP.fin x) = decide (0 ≤ x) from rfl]
  simp [not_le.mpr h]

/-- On finite inputs the IEEE `cdf` agrees with the real-valued `cdf`:
the inner division never leaves the finite domain. -/
lemma fp_cdf_fin (x : ℝ) : FP.cdf (FP.fin x) = FP.fin (cdf x) := by
  have hden : (1.0 + 0.3275911 * |x| : ℝ) ≠ 0 := by positivity
  unfold FP.cdf cdf cdf_y cdf_t
  rw [fp_fabs_fin, fp_mul_fin, fp_add_fin, fp_div_fin _ hden]
  simp only [fp_mul_fin, fp_add_fin, fp_exp_fin]
  rcases le_or_lt 0 x with hx | hx
  · rw [if_pos (fp_nonneg_true hx), if_pos hx]
  · rw [if_neg (fp_nonneg_false hx), if_neg (not_le.mpr hx), fp_sub_fin]

/-- On in-domain inputs (`K ≠ 0`, `S/K > 0`, `T ≥ 0`, `sigma·√T ≠ 0`) the
IEEE `d1` agrees with the real-valued one. -/
lemma fp_d1_fin {S K T sigma : ℝ} (r : ℝ) (hK : K ≠ 0) (hq : 0 < S / K)
    (hT : 0 ≤ T) (hden : sigma * Real.sqrt T ≠ 0) :
    FP.d1 (FP.fin S) (FP.fin K) (FP.fin T) (FP.fin r) (FP.fin sigma) =
      FP.fin (calculate_standard_normal_variable_stock S K T r sigma) := by
  unfold FP.d1 calculate_standard_normal_variable_stock
  rw [fp_div_fin _ hK, fp_log_fin hq, fp_sqrt_fin hT]
  simp only [fp_mul_fin, fp_add_fin]
  rw [fp_div_fin _ hden]

/-- On `T ≥ 0` the IEEE `d2` of a finite `d1` agrees with the real-valued
one. -/
lemma fp_d2_fin (d1v : ℝ) {T : ℝ} (r sigma : ℝ) (hT : 0 ≤ T) :
    FP.d2 (FP.fin d1v) (FP.fin T) (FP.fin r) (FP.fin sigma) =
      FP.fin (calculate_standard_normal_variable_strike d1v T r sigma) := by
  unfold FP.d2 calculate_standard_normal_variable_strike
  rw [fp_sqrt_fin hT]
  simp only [fp_mul_fin, fp_sub_fin]

/-- On finite arguments the IEEE price agrees with the real-valued one
(every operation in it is total on finite values). -/
lemma fp_price_fin (d1v d2v S K T r : ℝ) (ty : Char) :
    FP.price (FP.fin d1v) (FP.fin d2v) (FP.fin S) (FP.fin K) (FP.fin T)
        (FP.fin r) ty =
      FP.fin (calculate_european_option d1v d2v S K T r ty) := by
  unfold FP.price calculate_european_option
  by_cases hty : ty = 'c'
  · rw [if_pos hty, if_pos hty]
    simp only [fp_neg_fin, fp_mul_fin, fp_exp_fin, fp_cdf_fin, fp_sub_fin]
  · rw [if_neg hty, if_neg hty]
    simp only [fp_neg_fin, fp_mul_fin, fp_exp_fin, fp_cdf_fin, fp_sub_fin]

/-- On a finite `d1` the IEEE delta agrees with the real-valued one. -/
lemma fp_delta_fin (d1v : ℝ) (ty : Char) :
    FP.delta (FP.fin d1v) ty = FP.fin (calculate_delta d1v ty) := by
  unfold FP.delta calculate_delta
  by_cases hty : ty = 'c'
  · rw [if_pos hty, if_pos hty]
    simp only [fp_mul_fin, fp_cdf_fin]
  · rw [if_neg hty, if_neg hty]
    simp only [fp_mul_fin, fp_cdf_fin]

/-- On in-domain inputs (`2πT ≥ 0` and a nonzero denominator) the IEEE
gamma agrees with the real-valued one. -/
lemma fp_gamma_fin (d1v : ℝ) {S T sigma : ℝ} (hT : 0 ≤ 2 * π * T)
    (hden : S * sigma * Real.sqrt (2 * π * T) ≠ 0) :
    FP.gamma (FP.fin d1v) (FP.fin S) (FP.fin T) (FP.fin sigma) =
      FP.fin (calculate_gamma d1v S T sigma) := by
  unfold FP.gamma calculate_gamma
  simp only [fp_mul_fin, fp_exp_fin]
  rw [fp_sqrt_fin hT]
  simp only [fp_mul_fin]
  rw [fp_div_fin _ hden]

/-- On `T ≥ 0` the IEEE vega agrees with the real-valued one. -/
lemma fp_vega_fin (d1v : ℝ) (S : ℝ) {T : ℝ} (hT : 0 ≤ T) :
    FP.vega (FP.fin d1v) (FP.fin S) (FP.fin T) =
      FP.fin (calculate_vega d1v S T) := by
  unfold FP.vega calculate_vega
  rw [fp_sqrt_fin hT]
  simp only [fp_mul_fin, fp_exp_fin]
  rw [fp_sqrt_fin (by positivity : (0 : ℝ) ≤ 2 * π)]
  rw [fp_div_fin _ (ne_of_gt (Real.sqrt_pos.mpr (by positivity)))]

/-- On in-domain inputs the IEEE theta agrees with the real-valued one. -/
lemma fp_theta_fin (d1v d2v : ℝ) {S K T r sigma : ℝ} (ty : Char)
    (hT : 0 ≤ 2 * π * T) (hden : Real.sqrt (2 * π * T) ≠ 0) :
    FP.theta (FP.fin d1v) (FP.fin d2v) (FP.fin S) (FP.fin K) (FP.fin T)
        (FP.fin r) (FP.fin sigma) ty =
      FP.fin (calculate_theta d1v d2v S K T r sigma ty) := by
  unfold FP.theta calculate_theta
  by_cases hty : ty = 'c'
  · rw [if_pos hty, if_pos hty]
    simp only [fp_neg_fin, fp_mul_fin, fp_exp_fin]
    rw [fp_sqrt_fin hT, fp_cdf_fin]
    simp only [fp_mul_fin]
    rw [fp_div_fin _ hden]
    simp only [fp_sub_fin]
  · rw [if_neg hty, if_neg hty]
    simp only [fp_neg_fin, fp_mul_fin, fp_exp_fin]
    rw [fp_sqrt_fin hT, fp_cdf_fin]
    simp only [fp_mul_fin]
    rw [fp_div_fin _ hden]
    simp only [fp_sub_fin]

lemma FPcalculateOption_price (request : RequestOptionParameters) :
    (FPcalculateOption request).price =
      FP.price
        (FP.d1 (FP.fin request.S) (FP.fin request.K) (FP.fin request.T)
          (FP.fin request.r) (FP.fin request.sigma))
        (FP.d2
          (FP.d1 (FP.fin request.S) (FP.fin request.K) (FP.fin request.T)
            (FP.fin request.r) (FP.fin request.sigma))
          (FP.fin request.T) (FP.fin request.r) (FP.fin request.sigma))
        (FP.fin request.S) (FP.fin request.K) (FP.fin request.T)
        (FP.fin request.r) request.type := rfl

lemma FPcalculateOption_delta (request : RequestOptionParameters) :
    (FPcalculateOption request).delta =
      FP.delta
        (FP.d1 (FP.fin request.S) (FP.fin request.K) (FP.fin request.T)
          (FP.fin request.r) (FP.fin request.sigma)) request.type := rfl

lemma FPcalculateOption_gamma (request : RequestOptionParameters) :
    (FPcalculateOption request).gamma =
      FP.gamma
        (FP.d1 (FP.fin request.S) (FP.fin request.K) (FP.fin request.T)
          (FP.fin request.r) (FP.fin request.sigma))
        (FP.fin request.S) (FP.fin request.T) (FP.fin request.sigma) := rfl

lemma FPcalculateOption_vega (request : RequestOptionParameters) :
    (FPcalculateOption request).vega =
      FP.vega
        (FP.d1 (FP.fin request.S) (FP.fin request.K) (FP.fin request.T)
          (FP.fin request.r) (FP.fin request.sigma))
        (FP.fin request.S) (FP.fin request.T) := rfl

lemma FPcalculateOption_theta (request : RequestOptionParameters) :
    (FPcalculateOption request).theta =
      FP.theta
        (FP.d1 (FP.fin request.S) (FP.fin request.K) (FP.fin request.T)
          (FP.fin request.r) (FP.fin request.sigma))
        (FP.d2
          (FP.d1 (FP.fin request.S) (FP.fin request.K) (FP.fin request.T)
            (FP.fin request.r) (FP.fin request.sigma))
          (FP.fin request.T) (FP.fin request.r) (FP.fin request.sigma))
        (FP.fin request.S) (FP.fin request.K) (FP.fin request.T)
        (FP.fin request.r) (FP.fin request.sigma) request.type := rfl

/-- NaN propagates through `cdf` (the comparison `NaN >= 0.0` is false,
and every arithmetic operation on NaN returns NaN). -/
lemma fp_cdf_nan : FP.cdf FP.nan = FP.nan := rfl

/-- With negative time to expiry, `sqrt(T)` is NaN and vega is NaN
whatever the other inputs. -/
lemma fp_vega_nan_T_neg (d1v : FP) (S : ℝ) {T : ℝ} (hT : T < 0) :
    FP.vega d1v (FP.fin S) (FP.fin T) = FP.nan := by
  unfold FP.vega
  rw [fp_sqrt_fin_neg hT, fp_mul_nan', fp_mul_nan, fp_div_nan]

/-- For a non-finite `d1`, the factor `exp(-0.5*d1*d1)` is `0` (from an
infinite `d1`, where the argument is `-inf`) or NaN. -/
lemma fp_exp_negsq_of_not_finite {d : FP} (h : d.isFinite = false) :
    FP.exp (FP.mul (FP.mul (FP.fin (-0.5)) d) d) = FP.fin 0 ∨
    FP.exp (FP.mul (FP.mul (FP.fin (-0.5)) d) d) = FP.nan := by
  cases d with
  | fin a => simp [FP.isFinite] at h
  | pinf =>
      left
      rw [fp_mul_fin_pinf_neg (by norm_num : (-0.5 : ℝ) < 0)]
      rfl
  | ninf =>
      left
      rw [fp_mul_fin_ninf_neg (by norm_num : (-0.5 : ℝ) < 0)]
      rfl
  | nan => right; rfl

/-- Whenever `d1` is non-finite and the real gamma denominator is zero
(with `2πT ≥ 0`), the IEEE gamma is NaN: the numerator `exp(-0.5·d1²)`
collapses to `0` or NaN and is divided by zero. -/
lemma fp_gamma_nan {d : FP} (hd : d.isFinite = false) {S T sigma : ℝ}
    (hT : 0 ≤ 2 * π * T) (hden : S * sigma * Real.sqrt (2 * π * T) = 0) :
    FP.gamma d (FP.fin S) (FP.fin T) (FP.fin sigma) = FP.nan := by
  unfold FP.gamma
  have hsq : FP.sqrt (FP.mul (FP.mul (FP.fin 2) (FP.fin π)) (FP.fin T)) =
      FP.fin (Real.sqrt (2 * π * T)) := by
    simp only [fp_mul_fin]
    exact fp_sqrt_fin hT
  rw [hsq]
  have hden2 : FP.mul (FP.mul (FP.fin S) (FP.fin sigma))
      (FP.fin (Real.sqrt (2 * π * T))) = FP.fin 0 := by
    simp only [fp_mul_fin]
    rw [hden]
  rw [hden2]
  rcases fp_exp_negsq_of_not_finite hd with h | h <;> rw [h]
  · simp only [FP.div, if_true]
  · exact fp_div_nan _

/-- When `S/K` is strictly negative the IEEE `log` is NaN and `d1` is NaN
for every `T`, `r`, `sigma`. -/
lemma fp_d1_nan_of_ratio_neg {S K : ℝ} (hK : K ≠ 0) (hq : S / K < 0)
    (T r sigma : ℝ) :
    FP.d1 (FP.fin S) (FP.fin K) (FP.fin T) (FP.fin r) (FP.fin sigma) =
      FP.nan := by
  unfold FP.d1
  rw [fp_div_fin _ hK, fp_log_fin_neg hq, fp_add_nan, fp_div_nan]

/-- NaN propagates from `d1` to `d2`. -/
lemma fp_d2_nan (T r sigma : FP) : FP.d2 FP.nan T r sigma = FP.nan := by
  unfold FP.d2
  exact fp_sub_nan _

/-- NaN `d1` and `d2` make the price NaN in either branch. -/
lemma fp_price_nan (S K T r : ℝ) (ty : Char) :
    FP.price FP.nan FP.nan (FP.fin S) (FP.fin K) (FP.fin T) (FP.fin r) ty =
      FP.nan := by
  unfold FP.price
  by_cases hty : ty = 'c'
  · rw [if_pos hty, fp_cdf_nan, fp_mul_nan']
    rw [show FP.mul (FP.mul (FP.fin K)
        (FP.exp (FP.mul (FP.neg (FP.fin r)) (FP.fin T)))) FP.nan = FP.nan
      from fp_mul_nan' _]
    rfl
  · rw [if_neg hty]
    rw [show FP.neg FP.nan = FP.nan from rfl, fp_cdf_nan, fp_mul_nan',
      fp_mul_nan']
    rfl

/-- At `T = 0` the `d1` denominator `sigma*sqrt(0)` is zero, so `d1` is an
infinity or NaN. -/
lemma fp_d1_not_finite_T_zero (S K r sigma : ℝ) :
    (FP.d1 (FP.fin S) (FP.fin K) (FP.fin 0) (FP.fin r)
      (FP.fin sigma)).isFinite = false := by
  unfold FP.d1
  have h : FP.mul (FP.fin sigma) (FP.sqrt (FP.fin 0)) = FP.fin 0 := by
    rw [fp_sqrt_fin le_rfl, fp_mul_fin, Real.sqrt_zero, mul_zero]
  rw [h]
  exact fp_div_by_fin_zero_not_finite _

/-- At `sigma = 0` (and `T ≥ 0`) the `d1` denominator is zero, so `d1` is
an infinity or NaN. -/
lemma fp_d1_not_finite_sigma_zero (S K r : ℝ) {T : ℝ} (hT : 0 ≤ T) :
    (FP.d1 (FP.fin S) (FP.fin K) (FP.fin T) (FP.fin r)
      (FP.fin 0)).isFinite = false := by
  unfold FP.d1
  have h : FP.mul (FP.fin 0) (FP.sqrt (FP.fin T)) = FP.fin 0 := by
    rw [fp_sqrt_fin hT, fp_mul_fin, zero_mul]
  rw [h]
  exact fp_div_by_fin_zero_not_finite _

/-- At `S = 0 < K` (and `T ≥ 0`) the numerator of `d1` contains
`log(0) = -inf`, so `d1` is an infinity. -/
lemma fp_d1_not_finite_S_zero {K : ℝ} (hK : 0 < K) {T : ℝ} (hT : 0 ≤ T)
    (r sigma : ℝ) :
    (FP.d1 (FP.fin 0) (FP.fin K) (FP.fin T) (FP.fin r)
      (FP.fin sigma)).isFinite = false := by
  unfold FP.d1
  rw [fp_div_fin _ hK.ne', show ((0 : ℝ) / K) = 0 from zero_div K,
    fp_log_fin_zero, fp_sqrt_fin hT]
  simp only [fp_mul_fin, fp_add_fin]
  rw [fp_add_ninf_fin]
  exact fp_div_ninf_fin_not_finite _

/-- C8 (amended): the engine is total and never raises; under IEEE
semantics its results go non-finite (NaN or an infinity in at least one
output) whenever `T ≤ 0`, or `sigma = 0`, or `S ≤ 0 < K`, or `K < 0 < S`.
(For `sigma < 0` — and likewise for `K = 0 < S`, where the infinities wash
back out — the engine instead silently returns fully finite, meaningless
values: see the counterexample.) -/
theorem c8_domain_violation_nonfinite (S K T r sigma : ℝ) (ty : Char)
    (h : T ≤ 0 ∨ sigma = 0 ∨ (S ≤ 0 ∧ 0 < K) ∨ (K < 0 ∧ 0 < S)) :
    ¬ ((FPcalculateOption ⟨S, K, T, r, sigma, ty⟩).price.isFinite = true ∧
       (FPcalculateOption ⟨S, K, T, r, sigma, ty⟩).delta.isFinite = true ∧
       (FPcalculateOption ⟨S, K, T, r, sigma, ty⟩).gamma.isFinite = true ∧
       (FPcalculateOption ⟨S, K, T, r, sigma, ty⟩).vega.isFinite = true ∧
       (FPcalculateOption ⟨S, K, T, r, sigma, ty⟩).theta.isFinite = true) := by
  rintro ⟨hp, hd, hg, hv, hth⟩
  rcases h with hT | hsig | ⟨hS, hK⟩ | ⟨hK, hS⟩
  · rcases lt_or_eq_of_le hT with hTlt | hTeq
    · rw [FPcalculateOption_vega] at hv
      dsimp only at hv
      rw [fp_vega_nan_T_neg _ _ hTlt] at hv
      simp [FP.isFinite] at hv
    · subst hTeq
      rw [FPcalculateOption_gamma] at hg
      dsimp only at hg
      rw [fp_gamma_nan (fp_d1_not_finite_T_zero S K r sigma)
        (by norm_num) (by simp)] at hg
      simp [FP.isFinite] at hg
  · subst hsig
    rcases le_or_lt 0 T with hT0 | hTlt
    · rw [FPcalculateOption_gamma] at hg
      dsimp only at hg
      rw [fp_gamma_nan (fp_d1_not_finite_sigma_zero S K r hT0)
        (mul_nonneg (by positivity) hT0) (by simp)] at hg
      simp [FP.isFinite] at hg
    · rw [FPcalculateOption_vega] at hv
      dsimp only at hv
      rw [fp_vega_nan_T_neg _ _ hTlt] at hv
      simp [FP.isFinite] at hv
  · rcases lt_or_eq_of_le hS with hSlt | hSeq
    · rw [FPcalculateOption_price] at hp
      dsimp only at hp
      rw [fp_d1_nan_of_ratio_neg hK.ne' (div_neg_of_neg_of_pos hSlt hK)
        T r sigma, fp_d2_nan, fp_price_nan] at hp
      simp [FP.isFinite] at hp
    · subst hSeq
      rcases le_or_lt 0 T with hT0 | hTlt
      · rw [FPcalculateOption_gamma] at hg
        dsimp only at hg
        rw [fp_gamma_nan (fp_d1_not_finite_S_zero hK hT0 r sigma)
          (mul_nonneg (by positivity) hT0) (by simp)] at hg
        simp [FP.isFinite] at hg
      · rw [FPcalculateOption_vega] at hv
        dsimp only at hv
        rw [fp_vega_nan_T_neg _ _ hTlt] at hv
        simp [FP.isFinite] at hv
  · rw [FPcalculateOption_price] at hp
    dsimp only at hp
    rw [fp_d1_nan_of_ratio_neg hK.ne (div_neg_of_pos_of_neg hS hK)
      T r sigma, fp_d2_nan, fp_price_nan] at hp
    simp [FP.isFinite] at hp

/-- Witness for `c8_domain_violation_nonfinite`: negative time to expiry
makes the result record non-finite. -/
theorem c8_domain_violation_nonfinite_witness :
    ¬ ((FPcalculateOption ⟨100, 100, -1, 0.05, 0.2, 'c'⟩).price.isFinite =
        true ∧
       (FPcalculateOption ⟨100, 100, -1, 0.05, 0.2, 'c'⟩).delta.isFinite =
        true ∧
       (FPcalculateOption ⟨100, 100, -1, 0.05, 0.2, 'c'⟩).gamma.isFinite =
        true ∧
       (FPcalculateOption ⟨100, 100, -1, 0.05, 0.2, 'c'⟩).vega.isFinite =
        true ∧
       (FPcalculateOption ⟨100, 100, -1, 0.05, 0.2, 'c'⟩).theta.isFinite =
        true) :=
  c8_domain_violation_nonfinite 100 100 (-1) 0.05 0.2 'c'
    (Or.inl (by norm_num))

/-- C8 counterexample: the claim says any `sigma ≤ 0` yields non-finite
results, but at `sigma = -0.2` with `S = K = 100`, `T = 1`, `r = 0.05`
every IEEE operation stays in the finite domain and all five outputs are
finite (defined) garbage. -/
theorem c8_sigma_neg_counterexample :
    (-0.2 : ℝ) ≤ 0 ∧
    ((FPcalculateOption ⟨100, 100, 1, 0.05, -0.2, 'c'⟩).price.isFinite =
        true ∧
     (FPcalculateOption ⟨100, 100, 1, 0.05, -0.2, 'c'⟩).delta.isFinite =
        true ∧
     (FPcalculateOption ⟨100, 100, 1, 0.05, -0.2, 'c'⟩).gamma.isFinite =
        true ∧
     (FPcalculateOption ⟨100, 100, 1, 0.05, -0.2, 'c'⟩).vega.isFinite =
        true ∧
     (FPcalculateOption ⟨100, 100, 1, 0.05, -0.2, 'c'⟩).theta.isFinite =
        true) := by
  have hK : (100 : ℝ) ≠ 0 := by norm_num
  have hq : (0 : ℝ) < 100 / 100 := by norm_num
  have hT : (0 : ℝ) ≤ 1 := by norm_num
  have hden : (-0.2 : ℝ) * Real.sqrt 1 ≠ 0 := by
    rw [Real.sqrt_one]
    norm_num
  have hd1 : FP.d1 (FP.fin 100) (FP.fin 100) (FP.fin 1) (FP.fin 0.05)
      (FP.fin (-0.2)) =
      FP.fin (calculate_standard_normal_variable_stock 100 100 1 0.05
        (-0.2)) := fp_d1_fin 0.05 hK hq hT hden
  have hT2 : (0 : ℝ) ≤ 2 * π * 1 := by positivity
  have hs2 : Real.sqrt (2 * π * 1) ≠ 0 :=
    ne_of_gt (Real.sqrt_pos.mpr (by positivity))
  refine ⟨by norm_num, ?_, ?_, ?_, ?_, ?_⟩
  · rw [FPcalculateOption_price]
    dsimp only
    rw [hd1, fp_d2_fin _ 0.05 (-0.2) hT, fp_price_fin]
    rfl
  · rw [FPcalculateOption_delta]
    dsimp only
    rw [hd1, fp_delta_fin]
    rfl
  · rw [FPcalculateOption_gamma]
    dsimp only
    rw [hd1, fp_gamma_fin _ hT2 (mul_ne_zero (by norm_num) hs2)]
    rfl
  · rw [FPcalculateOption_vega]
    dsimp only
    rw [hd1, fp_vega_fin _ _ hT]
    rfl
  · rw [FPcalculateOption_theta]
    dsimp only
    rw [hd1, fp_d2_fin _ 0.05 (-0.2) hT, fp_theta_fin _ _ _ hT2 hs2]
    rfl

/-- At `+inf` the engine's `cdf` washes out to the finite value `0.5`:
`t = 1/inf = 0` and `exp(-inf) = 0`. -/
lemma fp_cdf_pinf : FP.cdf FP.pinf = FP.fin 0.5 := by
  unfold FP.cdf
  rw [show FP.fabs FP.pinf = FP.pinf from rfl,
    fp_mul_fin_pinf (by norm_num : (0 : ℝ) < 0.3275911),
    fp_add_fin_pinf, fp_div_fin_pinf,
    fp_mul_fin_pinf_neg (by norm_num : (-0.5 : ℝ) < 0),
    show FP.mul FP.ninf FP.pinf = FP.ninf from rfl,
    show FP.exp FP.ninf = FP.fin 0 from rfl]
  simp only [fp_mul_fin, fp_add_fin]
  rw [if_pos (show FP.nonneg FP.pinf = true from rfl)]
  congr 1
  norm_num

lemma fp_d1_strike_zero :
    FP.d1 (FP.fin 100) (FP.fin 0) (FP.fin 1) (FP.fin 0.05) (FP.fin 0.2) =
      FP.pinf := by
  unfold FP.d1
  rw [fp_div_fin_zero_pos (by norm_num : (0 : ℝ) < 100),
    show FP.log FP.pinf = FP.pinf from rfl,
    fp_sqrt_fin (by norm_num : (0 : ℝ) ≤ 1)]
  simp only [fp_mul_fin, fp_add_fin]
  rw [fp_add_pinf_fin, fp_div_pinf_fin (by rw [Real.sqrt_one]; norm_num)]

lemma fp_d2_strike_zero :
    FP.d2 FP.pinf (FP.fin 1) (FP.fin 0.05) (FP.fin 0.2) = FP.pinf := by
  unfold FP.d2
  rw [fp_sqrt_fin (by norm_num : (0 : ℝ) ≤ 1), fp_mul_fin, fp_sub_pinf_fin]

/-- With `K = 0 < S` the IEEE engine returns ALL-FINITE outputs
(`d1 = d2 = +inf`, but `cdf(+inf) = 0.5` and `exp(-inf) = 0` wash the
infinities out), which is why `K = 0` cannot appear in the amended
non-finiteness claim. -/
lemma fp_strike_zero_all_finite :
    (FPcalculateOption ⟨100, 0, 1, 0.05, 0.2, 'c'⟩).price.isFinite = true ∧
    (FPcalculateOption ⟨100, 0, 1, 0.05, 0.2, 'c'⟩).delta.isFinite = true ∧
    (FPcalculateOption ⟨100, 0, 1, 0.05, 0.2, 'c'⟩).gamma.isFinite = true ∧
    (FPcalculateOption ⟨100, 0, 1, 0.05, 0.2, 'c'⟩).vega.isFinite = true ∧
    (FPcalculateOption ⟨100, 0, 1, 0.05, 0.2, 'c'⟩).theta.isFinite = true := by
  have hT2 : (0 : ℝ) ≤ 2 * π * 1 := by positivity
  have hs2 : Real.sqrt (2 * π * 1) ≠ 0 :=
    ne_of_gt (Real.sqrt_pos.mpr (by positivity))
  have hexp : FP.exp (FP.mul (FP.mul (FP.fin (-0.5)) FP.pinf) FP.pinf) =
      FP.fin 0 := by
    rw [fp_mul_fin_pinf_neg (by norm_num : (-0.5 : ℝ) < 0)]
    rfl
  refine ⟨?_, ?_, ?_, ?_, ?_⟩
  · rw [FPcalculateOption_price]
    dsimp only
    rw [fp_d1_strike_zero, fp_d2_strike_zero]
    unfold FP.price
    rw [if_pos rfl, fp_cdf_pinf]
    simp only [fp_neg_fin, fp_mul_fin, fp_exp_fin, fp_sub_fin]
    rfl
  · rw [FPcalculateOption_delta]
    dsimp only
    rw [fp_d1_strike_zero]
    unfold FP.delta
    rw [if_pos rfl]
    dsimp only
    rw [fp_mul_fin_pinf (by norm_num : (0 : ℝ) < 1),
      fp_cdf_pinf, fp_mul_fin]
    rfl
  · rw [FPcalculateOption_gamma]
    dsimp only
    rw [fp_d1_strike_zero]
    unfold FP.gamma
    rw [hexp]
    simp only [fp_mul_fin]
    rw [fp_sqrt_fin hT2]
    simp only [fp_mul_fin]
    rw [fp_div_fin _ (mul_ne_zero (by norm_num) hs2)]
    rfl
  · rw [FPcalculateOption_vega]
    dsimp only
    rw [fp_d1_strike_zero]
    unfold FP.vega
    rw [hexp, fp_sqrt_fin (by norm_num : (0 : ℝ) ≤ 1)]
    simp only [fp_mul_fin]
    rw [fp_sqrt_fin (by positivity : (0 : ℝ) ≤ 2 * π),
      fp_div_fin _ (ne_of_gt (Real.sqrt_pos.mpr (by positivity)))]
    rfl
  · rw [FPcalculateOption_theta]
    dsimp only
    rw [fp_d1_strike_zero, fp_d2_strike_zero]
    unfold FP.theta
    rw [if_pos rfl]
    dsimp only
    rw [hexp, fp_mul_fin_pinf (by norm_num : (0 : ℝ) < 1),
      fp_cdf_pinf]
    simp only [fp_neg_fin, fp_mul_fin, fp_exp_fin]
    rw [fp_sqrt_fin hT2]
    rw [fp_div_fin _ hs2]
    simp only [fp_mul_fin, fp_sub_fin]
    rfl
